import Mathlib

/-!
Verification of the quality-control processing pipeline
(`services.py`, `controllers.py`, `app.py`) via a shallow embedding.

The embedding follows the Python source closely:

* `ImageProcessingService.process_image_for_defects` (services.py / app.py)
  is modelled over an abstract description of how far the processing of a
  given image file gets: the whole `try` body raises somewhere
  (`raisesExc`), it decodes but `measure.find_contours` returns no
  contours (`noContours`), or it completes with a rectangularity score
  (`completes r`).  Rectangularity is embedded as a rational number; the
  comparison constants `0.7` and `0.95` become `7/10` and `19/20`.
  Note that the source has two identical `except Exception` handlers; in
  Python only the first handler can run, and it returns `(None, False)`.
  The second handler, returning `(None, True)`, is dead code.

* `SerialComsController.send_command` (controllers.py) is modelled over
  the state of the underlying port (present or `None`, open flag, and
  whether the `write` call raises).  The source catches every exception,
  logs it, and returns normally, so the embedded result records that no
  exception propagates to the caller.

* `MultimediaController.capture_images` (controllers.py) is modelled over
  a per-index step behaviour: the `cap.read()` call returns `ret = False`
  (the slot is skipped via `continue`), succeeds with a frame, or some
  call inside the loop body raises.  The surrounding `try` returns `[]`
  on any exception, discarding frames captured so far.

* `GUI.processing_sequence` / `GUI.process_and_update_display` /
  `GUI.start_processing` (app.py) are modelled as a run body followed by
  the `finally` finaliser.  In `process_and_update_display`, when the
  service returns `(None, _)` the local `result_pil` is never bound, the
  `return has_defects, result_pil` line raises `UnboundLocalError`, the
  local handler catches it and returns the bare boolean `False`; the
  caller then fails unpacking two values, so the exception escapes into
  `processing_sequence`.  This is the `badArity` case below.
-/

namespace QualityControl

/-- How far the processing of one image file gets inside the `try` body of
`process_image_for_defects`: an exception anywhere in the body, the
no-contours early return, or completion with a rectangularity score. -/
inductive AnalysisInput
  | raisesExc
  | noContours
  | completes (rect : ℚ)
deriving DecidableEq, Repr

/-- The image value returned by `process_image_for_defects`: the raw masked
image (no-contours case) or the annotated RGB image carrying the score. -/
inductive ResultImage
  | maskedRaw
  | annotatedWith (rect : ℚ)
deriving DecidableEq, Repr

/-- Embedding of `ImageProcessingService.process_image_for_defects`
(services.py lines 15-82).  Returns the pair `(result_image, has_defects)`.
The exception path is the FIRST `except Exception` handler, which returns
`(None, False)`; the second, identical handler returning `(None, True)` is
unreachable in Python. -/
def process_image_for_defects : AnalysisInput → Option ResultImage × Bool
  | .raisesExc => (none, false)
  | .noContours => (some .maskedRaw, false)
  | .completes r =>
      (some (.annotatedWith r), decide (r < 7/10) || decide (r > 19/20))

/-- State of the underlying `serial.Serial` object held by
`SerialComsController`: whether `is_open` holds and whether a `write`
call on it raises. -/
structure SerialPort where
  isOpen : Bool
  writeRaises : Bool
deriving DecidableEq, Repr

/-- Observable outcome of one `send_command` call. -/
structure SendResult where
  /-- The raw bytes written to the port, if the write succeeded. -/
  wroteBytes : Option (List Char)
  /-- Whether an exception propagates to the caller. -/
  raised : Bool
  /-- Whether an error was logged (port closed, port missing, or write failure). -/
  loggedError : Bool
  /-- Whether the controller re-opened the port after a failure. -/
  reconnected : Bool
deriving DecidableEq, Repr

/-- Embedding of `SerialComsController.send_command` (controllers.py
lines 70-78).  `ser` is `self.ser`.  The body writes `f"{command}\n"`
encoded as bytes when the port exists and is open; every exception is
caught and logged, and the function returns normally in all cases. -/
def send_command (ser : Option SerialPort) (command : String) : SendResult :=
  match ser with
  | some s =>
      if s.isOpen then
        if s.writeRaises then
          ⟨none, false, true, false⟩
        else
          ⟨some (command.data ++ ['\n']), false, false, false⟩
      else
        ⟨none, false, true, false⟩
  | none => ⟨none, false, true, false⟩

/-- Behaviour of iteration `i` of the capture loop in `capture_images`:
`cap.read()` returns `ret = False` (slot skipped), or succeeds and the
frame (abstracted to a `Nat` identifier) is saved and appended, or some
call in the body (e.g. `cv2.imwrite`) raises. -/
inductive CapStep
  | readFail
  | success (frame : ℕ)
  | raisesDuring
deriving DecidableEq, Repr

/-- The `for i in range(4)` loop of `capture_images`, iterating over the
remaining indices: returns `none` when an iteration raises (the exception
escapes the loop, discarding the appended frames), otherwise the list of
appended frames in order. -/
def captureFold (steps : ℕ → CapStep) : List ℕ → Option (List ℕ)
  | [] => some []
  | i :: rest =>
      match steps i with
      | .readFail => captureFold steps rest
      | .success f => (captureFold steps rest).map (f :: ·)
      | .raisesDuring => none

/-- Embedding of `MultimediaController.capture_images` (controllers.py
lines 26-49).  `mkdirRaises` models `os.makedirs` raising before the
loop.  The surrounding `try` returns `[]` on any exception, discarding
the local `images` list built so far. -/
def capture_images (mkdirRaises : Bool) (steps : ℕ → CapStep) : List ℕ :=
  if mkdirRaises then []
  else
    match captureFold steps (List.range 4) with
    | some l => l
    | none => []

/-- The four hardware commands issued through the serial controller by the
domain operations `start_process`, `handle_defect`, `handle_normal`,
`reset_all_devices` (controllers.py lines 80-90). -/
inductive Cmd
  | start
  | defect
  | normal
  | reset
deriving DecidableEq, Repr

/-- The textual token each domain operation passes to `send_command`. -/
def Cmd.token : Cmd → String
  | .start => "START"
  | .defect => "DEFECT"
  | .normal => "NORMAL"
  | .reset => "RESET"

/-- Outcome of one `process_and_update_display` call (app.py lines
706-719) as seen by its caller.  When the service returns an image the
method returns the pair `(has_defects, result_pil)`.  When the service
returns `(None, _)`, the `isinstance` test fails, `result_pil` stays
unbound, the `return` raises `UnboundLocalError`, the local handler
catches it and returns the bare boolean `False`; the caller then raises
`TypeError` unpacking two values from it. -/
inductive DisplayOutcome
  | okPair (has_defects : Bool)
  | bareBool
deriving DecidableEq, Repr

/-- Embedding of `GUI.process_and_update_display` (app.py lines 706-719),
applied to the analysis behaviour of one captured image. -/
def process_and_update_display (a : AnalysisInput) : DisplayOutcome :=
  match process_image_for_defects a with
  | (some _, d) => .okPair d
  | (none, _) => .bareBool

/-- The per-frame loop of `processing_sequence` (app.py lines 639-660):
accumulates `defects_found` by logical OR over the frames; returns `none`
when the unpacking of a bare boolean raises and the loop is aborted. -/
def analyzeLoop : List AnalysisInput → Option Bool
  | [] => some false
  | a :: rest =>
      match process_and_update_display a with
      | .bareBool => none
      | .okPair d => (analyzeLoop rest).map (fun acc => d || acc)

/-- How the `try` body of `processing_sequence` exits. -/
inductive BodyOutcome
  | completed (defects : Bool) (nframes : ℕ)
  | raisedExc
  | noSerial
deriving DecidableEq, Repr

/-- Embedding of the `try` body of `GUI.processing_sequence` (app.py
lines 621-682).  `serialOk` is whether `self.serial_controller` is not
`None`; `captured` is the analysis behaviour of each path returned by
`capture_images`, in order.  Returns the commands issued inside the body
together with the way the body exits:

* serial controller missing: early `return`, no command issued;
* `captured` empty: `raise` after `start_process`;
* the frame loop aborts (bare-boolean unpack): exception after
  `start_process`;
* otherwise exactly one of `handle_defect` / `handle_normal` after
  `start_process`, then `add_history_entry` runs. -/
def runBody (serialOk : Bool) (captured : List AnalysisInput) :
    List Cmd × BodyOutcome :=
  if serialOk then
    if captured.isEmpty then ([.start], .raisedExc)
    else
      match analyzeLoop captured with
      | none => ([.start], .raisedExc)
      | some defects =>
          ([.start, if defects then .defect else .normal],
           .completed defects captured.length)
  else ([], .noSerial)

/-- Observable result of one whole `processing_sequence` call. -/
structure RunResult where
  /-- All commands issued to the serial controller during the call, in order. -/
  commands : List Cmd
  /-- Whether the body completed (completion dialog and history entry reached). -/
  completedRun : Bool
  /-- The history entry appended, if any: `(defects_found, frames_captured)`. -/
  history : Option (Bool × ℕ)
  /-- Value of `self.processing_active` when the call returns. -/
  processing_active : Bool
  /-- Whether the start button is re-enabled when the call returns. -/
  startEnabled : Bool
deriving DecidableEq, Repr

/-- The `finally` block of `processing_sequence` (app.py lines 690-704)
applied to the body result.  When the serial controller is missing the
block returns early: no reset is sent, the start button is left disabled
and `processing_active` is left `True`.  Otherwise it sends
`reset_all_devices`, sleeps, re-enables the button and clears the flag. -/
def finalizeRun : List Cmd × BodyOutcome → RunResult
  | (cmds, .noSerial) => ⟨cmds, false, none, true, false⟩
  | (cmds, .raisedExc) => ⟨cmds ++ [.reset], false, none, false, true⟩
  | (cmds, .completed d n) => ⟨cmds ++ [.reset], true, some (d, n), false, true⟩

/-- Embedding of `GUI.processing_sequence` (app.py lines 616-704): the
`try` body followed by the `finally` finaliser. -/
def processing_sequence (serialOk : Bool) (captured : List AnalysisInput) :
    RunResult :=
  finalizeRun (runBody serialOk captured)

/-- Observable effect of one `start_processing` call. -/
structure StartOutcome where
  /-- Whether a worker thread was spawned. -/
  spawned : Bool
  /-- All commands issued as a consequence of this start request. -/
  commands : List Cmd
  /-- Value of `self.processing_active` after the request (and, when a
  worker was spawned, after that worker finishes). -/
  activeAfter : Bool
deriving DecidableEq, Repr

/-- Embedding of `GUI.start_processing` (app.py lines 916-918): when
`processing_active` is set the call does nothing; otherwise it spawns a
worker running `processing_sequence`. -/
def start_processing (active serialOk : Bool)
    (captured : List AnalysisInput) : StartOutcome :=
  if active then ⟨false, [], active⟩
  else
    let r := processing_sequence serialOk captured
    ⟨true, r.commands, r.processing_active⟩

/-! ## Helper lemmas about the capture loop -/

/-- When no iteration of the capture loop raises, the loop returns the
frames of the successful reads, in the order of their indices. -/
theorem captureFold_of_no_raise (steps : ℕ → CapStep) :
    ∀ idxs : List ℕ, (∀ i ∈ idxs, steps i ≠ CapStep.raisesDuring) →
      captureFold steps idxs =
        some (idxs.filterMap (fun i =>
          match steps i with
          | CapStep.success f => some f
          | _ => none)) := by
  intro idxs
  induction idxs with
  | nil => intro _; rfl
  | cons i rest ih =>
    intro h
    have hi := h i (by simp)
    have hrest := ih (fun j hj => h j (by simp [hj]))
    cases hs : steps i with
    | readFail => simp [captureFold, hs, hrest]
    | success f => simp [captureFold, hs, hrest]
    | raisesDuring => exact absurd hs hi

/-- When some iteration of the capture loop raises, the loop result is
`none`, whatever was appended before. -/
theorem captureFold_of_raise (steps : ℕ → CapStep) :
    ∀ idxs : List ℕ, (∃ i ∈ idxs, steps i = CapStep.raisesDuring) →
      captureFold steps idxs = none := by
  intro idxs
  induction idxs with
  | nil => rintro ⟨i, hi, _⟩; simp at hi
  | cons j rest ih =>
    rintro ⟨i, hi, hraise⟩
    rcases List.mem_cons.mp hi with heq | hmem
    · subst heq; simp [captureFold, hraise]
    · cases hs : steps j with
      | readFail => simp [captureFold, hs, ih ⟨i, hmem, hraise⟩]
      | success f => simp [captureFold, hs, ih ⟨i, hmem, hraise⟩]
      | raisesDuring => simp [captureFold, hs]

/-! ## Claim theorems -/

/-- Claim C1 (status: code bug in the source).  The spec demands that any
failure during analysis steps 1-9 reports `is_defective = true`
(fail-safe).  The source has two identical `except Exception` handlers;
Python runs only the first, which returns `(None, False)`, so every
analysis failure is reported as NOT defective.  The second handler, which
would return `(None, True)` as the spec describes, is dead code.  This
theorem evaluates the embedded function at the failing input. -/
theorem analysis_exception_reports_not_defective :
    process_image_for_defects AnalysisInput.raisesExc = (none, false) := rfl

/-- Claim C9: for every image whose analysis completes through the
rectangularity computation, `process_image_for_defects` reports a defect
exactly when the rectangularity is below 7/10 or above 19/20 (the fixed
constants 0.7 and 0.95 of services.py line 73). -/
theorem defective_iff_outside_thresholds (r : ℚ) :
    (process_image_for_defects (AnalysisInput.completes r)).2 = true ↔
      (r < 7/10 ∨ r > 19/20) := by
  simp [process_image_for_defects]

/-- Claim C6 counterexample: a write failure on an open port is logged
and nothing is written, yet `send_command` returns normally — no error
of any kind reaches the caller, contradicting the claim that the failure
is surfaced as a SendError. -/
theorem send_write_failure_returns_normally :
    (send_command (some ⟨true, true⟩) "RESET").loggedError = true ∧
    (send_command (some ⟨true, true⟩) "RESET").wroteBytes = none ∧
    (send_command (some ⟨true, true⟩) "RESET").raised = false :=
  ⟨rfl, rfl, rfl⟩

/-- Claim C6 as amended: `send_command` writes the textual token of the
command followed by a newline, encoded as raw bytes, when the port is
open and the write succeeds; a write failure is logged and swallowed —
the call returns normally, surfacing nothing to the caller — and the
channel is never auto-reconnected. -/
theorem send_writes_token_and_swallows_failures (ser : Option SerialPort)
    (command : String) :
    (send_command ser command).raised = false ∧
    (send_command ser command).reconnected = false ∧
    (∀ s, ser = some s → s.isOpen = true → s.writeRaises = false →
      (send_command ser command).wroteBytes = some (command.data ++ ['\n'])) ∧
    (∀ s, ser = some s → s.isOpen = true → s.writeRaises = true →
      (send_command ser command).loggedError = true ∧
      (send_command ser command).wroteBytes = none) := by
  refine ⟨?_, ?_, ?_, ?_⟩
  · rcases ser with _ | ⟨(_ | _), (_ | _)⟩ <;> rfl
  · rcases ser with _ | ⟨(_ | _), (_ | _)⟩ <;> rfl
  · rintro ⟨so, sw⟩ rfl ho hw
    have ho' : so = true := ho
    have hw' : sw = false := hw
    subst ho'; subst hw'
    rfl
  · rintro ⟨so, sw⟩ rfl ho hw
    have ho' : so = true := ho
    have hw' : sw = true := hw
    subst ho'; subst hw'
    exact ⟨rfl, rfl⟩

/-- Witness for the amended claim C6, at an open port whose write
succeeds and the command START. -/
theorem send_writes_token_and_swallows_failures_witness :
    (send_command (some ⟨true, false⟩) "START").wroteBytes =
      some ("START".data ++ ['\n']) ∧
    (send_command (some ⟨true, false⟩) "START").raised = false :=
  ⟨(send_writes_token_and_swallows_failures (some ⟨true, false⟩)
      "START").2.2.1 ⟨true, false⟩ rfl rfl rfl,
   (send_writes_token_and_swallows_failures (some ⟨true, false⟩) "START").1⟩

/-- Claim C8: over the four attempted reads, every read failure skips its
slot, and `capture_images` returns exactly the frames of the successful
reads in their original relative order (provided no iteration raises an
exception, the case settled separately by claim C10). -/
theorem capture_batch_skips_failed_reads (steps : ℕ → CapStep)
    (h : ∀ i ∈ List.range 4, steps i ≠ CapStep.raisesDuring) :
    capture_images false steps =
      (List.range 4).filterMap (fun i =>
        match steps i with
        | CapStep.success f => some f
        | _ => none) := by
  simp [capture_images, captureFold_of_no_raise steps (List.range 4) h]

/-- Witness for claim C8: a device failing only on read index 2 yields
the three successful frames in order. -/
theorem capture_batch_skips_failed_reads_witness :
    capture_images false
      (fun i => if i = 2 then CapStep.readFail else CapStep.success (10 * i))
      = [0, 10, 30] := by
  have h := capture_batch_skips_failed_reads
    (fun i => if i = 2 then CapStep.readFail else CapStep.success (10 * i))
    (by decide)
  rw [h]; rfl

/-- Claim C10: an exception raised inside `capture_images` after some
frames were already read and saved makes the function return the empty
list, discarding the partial batch. -/
theorem exception_discards_partial_batch (steps : ℕ → CapStep) (k : ℕ)
    (hk : k < 4) (hraise : steps k = CapStep.raisesDuring)
    (_hbefore : ∃ j, j < k ∧ ∃ f, steps j = CapStep.success f) :
    capture_images false steps = [] := by
  have h : captureFold steps (List.range 4) = none :=
    captureFold_of_raise steps (List.range 4) ⟨k, by simpa using hk, hraise⟩
  simp [capture_images, h]

/-- Witness for claim C10: the first read succeeds, the second iteration
raises, and the already-captured frame is discarded. -/
theorem exception_discards_partial_batch_witness :
    capture_images false
      (fun i => if i = 0 then CapStep.success 7 else CapStep.raisesDuring)
      = [] :=
  exception_discards_partial_batch
    (fun i => if i = 0 then CapStep.success 7 else CapStep.raisesDuring)
    1 (by decide) (by decide) ⟨0, by decide, 7, by decide⟩

/-- Claim C2: for every run with an initialized serial controller (an
initialization failure is fatal to starting a run), the issued command
sequence starts with Start, ends with Reset on every exit path, equals
`[Start, Defect-or-Normal, Reset]` when the frame analysis loop
completes, and equals `[Start, Reset]` on a capture failure (and on the
path where the analysis loop aborts, where analysis does not complete). -/
theorem run_command_sequence (captured : List AnalysisInput) :
    ((processing_sequence true captured).commands.head? = some Cmd.start) ∧
    ((processing_sequence true captured).commands.getLast? = some Cmd.reset) ∧
    (∀ d, captured ≠ [] → analyzeLoop captured = some d →
      (processing_sequence true captured).commands =
        [Cmd.start, if d then Cmd.defect else Cmd.normal, Cmd.reset]) ∧
    (captured = [] →
      (processing_sequence true captured).commands = [Cmd.start, Cmd.reset]) ∧
    (analyzeLoop captured = none →
      (processing_sequence true captured).commands = [Cmd.start, Cmd.reset]) := by
  cases captured with
  | nil =>
    refine ⟨rfl, rfl, fun d hd _ => absurd rfl hd, fun _ => rfl, fun h => ?_⟩
    simp [analyzeLoop] at h
  | cons a rest =>
    cases ha : analyzeLoop (a :: rest) with
    | none =>
      have hcmds : (processing_sequence true (a :: rest)).commands =
          [Cmd.start, Cmd.reset] := by
        simp [processing_sequence, runBody, finalizeRun, ha]
      exact ⟨by rw [hcmds]; rfl, by rw [hcmds]; rfl,
        fun d _ hd => Option.noConfusion hd,
        fun h => absurd h (List.cons_ne_nil a rest), fun _ => hcmds⟩
    | some d0 =>
      have hcmds : (processing_sequence true (a :: rest)).commands =
          [Cmd.start, if d0 then Cmd.defect else Cmd.normal, Cmd.reset] := by
        simp [processing_sequence, runBody, finalizeRun, ha]
      refine ⟨by rw [hcmds]; rfl, by rw [hcmds]; cases d0 <;> rfl, ?_,
        fun h => absurd h (List.cons_ne_nil a rest),
        fun h => Option.noConfusion h⟩
      intro d _ hd
      injection hd with he
      subst he
      exact hcmds

/-- Witness for claim C2: a one-frame run whose frame decodes with no
contours completes without defects, issuing Start, Normal, Reset. -/
theorem run_command_sequence_witness :
    (processing_sequence true [AnalysisInput.noContours]).commands =
      [Cmd.start, Cmd.normal, Cmd.reset] := by
  have h := (run_command_sequence [AnalysisInput.noContours]).2.2.1 false
    (List.cons_ne_nil _ _) rfl
  simpa using h

/-- Claim C3 (status: code bug in the source).  The spec demands that a
single failing frame is contained: recorded as a fail-safe defective
verdict while the run continues.  In the source,
`process_and_update_display` returns the bare boolean `False` on an
analysis failure; the caller then raises `TypeError` unpacking two
values from it, so the whole run aborts to Failed: commands
`[Start, Reset]`, no history entry.  This theorem evaluates the embedded
run at a two-frame batch whose first frame fails. -/
theorem frame_failure_aborts_run :
    (processing_sequence true
      [AnalysisInput.raisesExc, AnalysisInput.noContours]).completedRun
        = false ∧
    (processing_sequence true
      [AnalysisInput.raisesExc, AnalysisInput.noContours]).commands
        = [Cmd.start, Cmd.reset] ∧
    (processing_sequence true
      [AnalysisInput.raisesExc, AnalysisInput.noContours]).history = none :=
  ⟨rfl, rfl, rfl⟩

/-- Claim C4 counterexample: the pass taken when the serial controller is
uninitialized ends with `processing_active` still `True` and the start
button still disabled — the early `return` inside the `finally` block
(app.py line 696) skips the reset of the flag. -/
theorem noserial_pass_leaves_flag_set :
    (processing_sequence false []).processing_active = true ∧
    (processing_sequence false []).startEnabled = false :=
  ⟨rfl, rfl⟩

/-- Claim C4 as amended: on every orchestration pass in which the serial
controller is initialized — whether the pass ends Completed or Failed —
`processing_active` is reset to false and start requests are re-enabled
at pass end; only the early-return exit taken when the serial controller
is uninitialized leaves the flag set. -/
theorem pass_end_resets_flag (serialOk : Bool)
    (captured : List AnalysisInput) (h : serialOk = true) :
    (processing_sequence serialOk captured).processing_active = false ∧
    (processing_sequence serialOk captured).startEnabled = true := by
  subst h
  cases captured with
  | nil => exact ⟨rfl, rfl⟩
  | cons a rest =>
    cases ha : analyzeLoop (a :: rest) with
    | none => simp [processing_sequence, runBody, finalizeRun, ha]
    | some d => simp [processing_sequence, runBody, finalizeRun, ha]

/-- Witness for the amended claim C4, at a run with the controller
initialized and an empty capture batch. -/
theorem pass_end_resets_flag_witness :
    (processing_sequence true []).processing_active = false ∧
    (processing_sequence true []).startEnabled = true :=
  pass_end_resets_flag true [] rfl

/-- Claim C5: a start request arriving while `processing_active` is set
is a no-op — no worker is spawned, no command is issued (hence no second
Start), and the active flag is unchanged, so at most one run is in
flight at a time. -/
theorem start_while_active_is_noop (active serialOk : Bool)
    (captured : List AnalysisInput) (h : active = true) :
    start_processing active serialOk captured = ⟨false, [], active⟩ := by
  simp [start_processing, h]

/-- Witness for claim C5 with the flag set. -/
theorem start_while_active_is_noop_witness :
    start_processing true true [] = ⟨false, [], true⟩ :=
  start_while_active_is_noop true true [] rfl

/-- Claim C7: a run whose capture yields zero frames fails — the
completion path is not reached, the commands are exactly
`[Start, Reset]`, and no history entry is appended; and in general no
pass that fails to complete appends a history entry. -/
theorem zero_frames_fails_and_records_nothing
    (captured : List AnalysisInput) (h : captured = []) :
    (processing_sequence true captured).completedRun = false ∧
    (processing_sequence true captured).commands = [Cmd.start, Cmd.reset] ∧
    (processing_sequence true captured).history = none ∧
    (∀ (sOk : Bool) (c : List AnalysisInput),
      (processing_sequence sOk c).completedRun = false →
      (processing_sequence sOk c).history = none) := by
  subst h
  refine ⟨rfl, rfl, rfl, ?_⟩
  intro sOk c hfail
  rcases hb : runBody sOk c with ⟨cmds, out⟩
  simp only [processing_sequence, hb] at hfail ⊢
  cases out with
  | completed d n => simp [finalizeRun] at hfail
  | raisedExc => rfl
  | noSerial => rfl

/-- Witness for claim C7 at the empty capture batch. -/
theorem zero_frames_fails_and_records_nothing_witness :
    (processing_sequence true []).commands = [Cmd.start, Cmd.reset] ∧
    (processing_sequence true []).history = none :=
  ⟨(zero_frames_fails_and_records_nothing [] rfl).2.1,
   (zero_frames_fails_and_records_nothing [] rfl).2.2.1⟩

end QualityControl
